import Mathlib

/-!
Shallow embedding of the authorization / ownership layer of a music-sharing
web application: comment CRUD handlers, library (user_projects) handlers,
tip recording, identity resolution and the atomic metric-increment RPC.
JavaScript request values are modelled explicitly (truthiness, parseFloat,
Number coercion); the hosted relational datastore is modelled as lists of
rows with the same columns the handlers read and write.
-/

namespace Demo

/-- Model of an arbitrary JavaScript value as seen by the handlers: either
`undefined`/`null`/empty (falsy, coerces to NaN), the number NaN, a finite
number, or some other value carrying its truthiness, its `parseFloat` result
and its `Number(..)` result (`none` meaning NaN or non-finite). -/
inductive JVal where
  | undef
  | numNaN
  | num (q : ℚ)
  | other (truthy : Bool) (parsed : Option ℚ) (toNum : Option ℚ)
deriving DecidableEq, Repr

/-- JavaScript truthiness of a `JVal` (`undefined`, `null`, `0`, `NaN`, `""`
are falsy). -/
def JVal.jsTruthy : JVal → Bool
  | .undef => false
  | .numNaN => false
  | .num q => decide (q ≠ 0)
  | .other t _ _ => t

/-- `typeof v === 'number'` for a `JVal`. -/
def JVal.isNumberType : JVal → Bool
  | .numNaN => true
  | .num _ => true
  | _ => false

/-- `parseFloat(v)` for a `JVal`; `none` models NaN. -/
def JVal.parseFloat : JVal → Option ℚ
  | .undef => none
  | .numNaN => none
  | .num q => some q
  | .other _ p _ => p

/-- `Number(v)` for a `JVal`, with `none` when the result fails
`Number.isFinite` (NaN or an infinity). -/
def JVal.toNumber : JVal → Option ℚ
  | .undef => none
  | .numNaN => none
  | .num q => some q
  | .other _ _ t => t

/-- JavaScript truthiness of an optional string (`null`/`undefined` and the
empty string are falsy); returns the string itself when truthy. -/
def getTruthy : Option String → Option String
  | none => none
  | some s => if s = "" then none else some s

/-- `Math.round q` as used by the crypto-tip handler (half rounds toward
positive infinity). -/
def jsRound (q : ℚ) : Int := ⌊q + 1/2⌋

/-- Characters removed by JavaScript `String.prototype.trim`. -/
def isJsWhitespace (c : Char) : Bool :=
  c = ' ' || c = '\t' || c = '\n' || c = '\r' || c = '\x0b' || c = '\x0c'

/-- JavaScript `s.trim()`: strip leading and trailing whitespace. -/
def jsTrim (s : String) : String :=
  String.mk (((s.data.dropWhile isJsWhitespace).reverse.dropWhile
      isJsWhitespace).reverse)

/-- JavaScript `s.slice(0, n)`. -/
def jsSlice (s : String) (n : Nat) : String :=
  String.mk (s.data.take n)

/-- Hexadecimal digit, upper or lower case, as matched by the `/i` UUID and
tx-hash regexes. -/
def isHexChar (c : Char) : Bool :=
  ('0' ≤ c && c ≤ '9') || ('a' ≤ c && c ≤ 'f') || ('A' ≤ c && c ≤ 'F')

/-- `isValidUUID` from the shared validation module: the string matches
`/^[0-9a-f]\x7b8\x7d-[0-9a-f]\x7b4\x7d-[0-9a-f]\x7b4\x7d-[0-9a-f]\x7b4\x7d-[0-9a-f]\x7b12\x7d$/i`,
i.e. length 36 with dashes at offsets 8, 13, 18, 23 and hex digits
elsewhere. -/
def isValidUUID (s : String) : Bool :=
  s.data.length = 36 &&
    (List.range 36).all (fun i =>
      let c := s.data.getD i ' '
      if i = 8 ∨ i = 13 ∨ i = 18 ∨ i = 23 then c = '-' else isHexChar c)

/-- `isValidTxHash` from the shared validation module: matches
`/^0x[0-9a-fA-F]\x7b64\x7d$/`. -/
def isValidTxHash (s : String) : Bool :=
  s.data.length = 66 &&
    s.data.getD 0 ' ' = '0' && s.data.getD 1 ' ' = 'x' &&
    (s.data.drop 2).all isHexChar

/-- `sanitizeText` from the shared validation module: `null` for a falsy
input, otherwise the input trimmed and cut to `maxLength` characters. -/
def sanitizeText : Option String → Nat → Option String
  | none, _ => none
  | some s, maxLength =>
      if s = "" then none else some (jsSlice (jsTrim s) maxLength)

/-- `a || b` on a nullable string against a string fallback
(JavaScript `||` takes the fallback when the left side is falsy). -/
def jsOrStr (a : Option String) (b : String) : String :=
  match a with
  | none => b
  | some s => if s = "" then b else s

section DataModel

/-- A row of the `users` table (columns the embedded handlers touch). -/
structure UserRow where
  id : String
  privy_id : String
  username : Option String
  email : Option String
  stripe_account_id : Option String
  stripe_onboarding_complete : Option Bool
deriving DecidableEq, Repr

/-- A row of the `projects` table. -/
structure ProjectRow where
  id : String
  creator_id : String
  sharing_enabled : Option Bool
deriving DecidableEq, Repr

/-- A row of the `tracks` table (its parent project reference). -/
structure TrackRow where
  id : String
  project_id : Option String
deriving DecidableEq, Repr

/-- A row of the `comments` table. -/
structure CommentRow where
  id : String
  user_id : String
  project_id : Option String
  track_id : Option String
  content : String
  timestamp_seconds : Option Int
  created_at : Nat
deriving DecidableEq, Repr

/-- A row of the `user_projects` (library) table. -/
structure LibraryRow where
  id : String
  user_id : String
  project_id : String
  pinned : Bool
deriving DecidableEq, Repr

/-- A row of the `tips` table. -/
structure TipRow where
  id : String
  creator_id : String
  amount : Int
  currency : String
  tipper_username : Option String
  message : Option String
  stripe_payment_intent_id : String
  stripe_session_id : String
  status : String
  is_read : Bool
deriving DecidableEq, Repr

/-- A row of the `project_metrics` table. -/
structure MetricsRow where
  project_id : String
  plays : Int
  shares : Int
  adds : Int
deriving DecidableEq, Repr

/-- The datastore state: one list of rows per table the embedded handlers
use. -/
structure DB where
  users : List UserRow
  projects : List ProjectRow
  tracks : List TrackRow
  comments : List CommentRow
  user_projects : List LibraryRow
  tips : List TipRow
  project_metrics : List MetricsRow
deriving DecidableEq, Repr

end DataModel

/-- An HTTP error response: status code and message. -/
structure ErrResp where
  status : Nat
  msg : String
deriving DecidableEq, Repr

/-- Modelled from the spec: `getUserByPrivyId` from the auth library (not in
the provided sources) looks up the User record whose external identity
(`privy_id`) matches the verified subject identifier. -/
def getUserByPrivyId (db : DB) (privyId : String) : Option UserRow :=
  db.users.find? (fun u => u.privy_id == privyId)

/-- The verified bearer credential: `none` when `verifyPrivyToken` fails or
no token is supplied, otherwise the stable external subject id. -/
abbrev Auth := Option String

/-- `getCurrentUserFromRequest`: resolve the caller's User record, `none`
for anonymous or unknown callers. -/
def getCurrentUser (db : DB) (auth : Auth) : Option UserRow :=
  match auth with
  | none => none
  | some privyId => getUserByPrivyId db privyId

/-- `getTrackProject`: join a track to its parent project, returning the
project row (with creator and visibility flag) or `none`. -/
def getTrackProject (db : DB) (trackId : String) : Option ProjectRow :=
  match db.tracks.find? (fun t => t.id == trackId) with
  | none => none
  | some t =>
    match t.project_id with
    | none => none
    | some pid => db.projects.find? (fun p => p.id == pid)

/-- Resolve the display name of a comment's author:
`author?.username || author?.email || 'Unknown'`. -/
def authorName (db : DB) (uid : String) : String :=
  match db.users.find? (fun u => u.id == uid) with
  | none => "Unknown"
  | some u => jsOrStr u.username (jsOrStr u.email "Unknown")

/-- A comment as returned by the list endpoint: the row plus the
caller-relative capability flags. -/
structure EnhancedComment where
  comment : CommentRow
  author_name : String
  can_edit : Bool
  can_delete : Bool
deriving DecidableEq, Repr

/-- The per-comment enrichment step of the comment list handler: compute
`author_name`, `can_edit` (`isOwner`) and `can_delete`
(`isOwner || isCreator`) relative to the current user and the resolved
target creator id. -/
def enhance (db : DB) (cu : Option UserRow) (targetCreatorId : String)
    (c : CommentRow) : EnhancedComment :=
  let isOwner : Bool :=
    match cu with
    | some u => u.id == c.user_id
    | none => false
  let isCreator : Bool :=
    match cu with
    | some u => (targetCreatorId != "") && (u.id == targetCreatorId)
    | none => false
  { comment := c
    author_name := authorName db c.user_id
    can_edit := isOwner
    can_delete := isOwner || isCreator }

/-- The datastore's `order('created_at', ascending: false)`: newest first. -/
def orderByCreatedDesc (l : List CommentRow) : List CommentRow :=
  l.insertionSort (fun a b => b.created_at ≤ a.created_at)

/-- The project branch of the comment list handler: validate the id, check
existence and visibility, then list and enrich the project's comments. -/
def commentsGetProject (db : DB) (auth : Auth) (pid : String) :
    Except ErrResp (List EnhancedComment) :=
  if isValidUUID pid = false then .error ⟨400, "Invalid project_id"⟩
  else
    match db.projects.find? (fun p => p.id == pid) with
    | none => .error ⟨404, "Project not found"⟩
    | some project =>
      if project.sharing_enabled == some false then
        .error ⟨404, "Project not found"⟩
      else
        let cs := orderByCreatedDesc
          (db.comments.filter (fun c => c.project_id == some pid))
        .ok (cs.map (enhance db (getCurrentUser db auth) project.creator_id))

/-- The track branch of the comment list handler: validate the id, resolve
the parent project and its visibility, then list and enrich the track's
comments. -/
def commentsGetTrack (db : DB) (auth : Auth) (tid : String) :
    Except ErrResp (List EnhancedComment) :=
  if isValidUUID tid = false then .error ⟨400, "Invalid track_id"⟩
  else
    match getTrackProject db tid with
    | none => .error ⟨404, "Track not found"⟩
    | some project =>
      if project.sharing_enabled == some false then
        .error ⟨404, "Track not found"⟩
      else
        let cs := orderByCreatedDesc
          (db.comments.filter (fun c => c.track_id == some tid))
        .ok (cs.map (enhance db (getCurrentUser db auth) project.creator_id))

/-- `GET /api/comments`: validate the target parameters, resolve the target
and its visibility, and return the target's comments enriched with
caller-relative capability flags. -/
def commentsGet (db : DB) (auth : Auth)
    (projectIdRaw trackIdRaw : Option String) :
    Except ErrResp (List EnhancedComment) :=
  match getTruthy projectIdRaw, getTruthy trackIdRaw with
  | some _, some _ => .error ⟨400, "Provide either project_id or track_id"⟩
  | none, none => .error ⟨400, "Provide either project_id or track_id"⟩
  | some pid, none => commentsGetProject db auth pid
  | none, some tid => commentsGetTrack db auth tid

/-- The project-scoped comment list variant (`_privy/coop` sibling route):
track targets are no longer accepted; otherwise the project branch is the
same as `commentsGet`. -/
def coopCommentsGet (db : DB) (auth : Auth)
    (projectIdRaw trackIdRaw : Option String) :
    Except ErrResp (List EnhancedComment) :=
  match getTruthy projectIdRaw with
  | none =>
    if (getTruthy trackIdRaw).isSome then
      .error ⟨400, "Track comments are no longer supported"⟩
    else
      .error ⟨400, "project_id is required"⟩
  | some pid => commentsGetProject db auth pid

/-- The request body of `POST /api/comments`. -/
structure CommentPostBody where
  project_id : Option String
  track_id : Option String
  content : Option String
  timestamp_seconds : JVal
deriving DecidableEq, Repr

/-- `POST /api/comments`: authenticate, validate exactly one target and the
content, resolve the target's visibility, validate the timestamp for track
targets, then insert the comment row. Returns the response together with
the resulting datastore state; `newId` and `now` stand for the generated
primary key and insertion time. -/
def commentsPost (db : DB) (auth : Auth) (body : CommentPostBody)
    (newId : String) (now : Nat) : Except ErrResp CommentRow × DB :=
  match auth with
  | none => (.error ⟨401, "Unauthorized"⟩, db)
  | some privyId =>
    match getUserByPrivyId db privyId with
    | none => (.error ⟨404, "User not found"⟩, db)
    | some user =>
      let content := sanitizeText body.content 2000
      match getTruthy body.project_id, getTruthy body.track_id with
      | some _, some _ =>
        (.error ⟨400, "Provide either project_id or track_id"⟩, db)
      | none, none =>
        (.error ⟨400, "Provide either project_id or track_id"⟩, db)
      | some pid, none =>
        match content with
        | none => (.error ⟨400, "Comment content is required"⟩, db)
        | some cont =>
          if cont = "" then (.error ⟨400, "Comment content is required"⟩, db)
          else if isValidUUID pid = false then
            (.error ⟨400, "Invalid project_id"⟩, db)
          else
            match db.projects.find? (fun p => p.id == pid) with
            | none => (.error ⟨404, "Project not found"⟩, db)
            | some project =>
              if project.sharing_enabled == some false then
                (.error ⟨404, "Project not found"⟩, db)
              else
                let row : CommentRow :=
                  ⟨newId, user.id, some pid, none, cont, none, now⟩
                (.ok row, { db with comments := db.comments ++ [row] })
      | none, some tid =>
        match content with
        | none => (.error ⟨400, "Comment content is required"⟩, db)
        | some cont =>
          if cont = "" then (.error ⟨400, "Comment content is required"⟩, db)
          else if isValidUUID tid = false then
            (.error ⟨400, "Invalid track_id"⟩, db)
          else
            match getTrackProject db tid with
            | none => (.error ⟨404, "Track not found"⟩, db)
            | some project =>
              if project.sharing_enabled == some false then
                (.error ⟨404, "Track not found"⟩, db)
              else
                match body.timestamp_seconds.toNumber with
                | none =>
                  (.error ⟨400,
                    "Valid non-negative timestamp_seconds is required for track comments"⟩,
                    db)
                | some ts =>
                  if ts < 0 then
                    (.error ⟨400,
                      "Valid non-negative timestamp_seconds is required for track comments"⟩,
                      db)
                  else
                    let row : CommentRow :=
                      ⟨newId, user.id, none, some tid, cont, some ⌊ts⌋, now⟩
                    (.ok row, { db with comments := db.comments ++ [row] })

/-- `PATCH /api/comments`: authenticate, validate the id and content, load
the existing comment, reject non-authors with 403, then update the
content. -/
def commentsPatch (db : DB) (auth : Auth)
    (idRaw contentRaw : Option String) : Except ErrResp CommentRow × DB :=
  match auth with
  | none => (.error ⟨401, "Unauthorized"⟩, db)
  | some privyId =>
    match getUserByPrivyId db privyId with
    | none => (.error ⟨404, "User not found"⟩, db)
    | some user =>
      let content := sanitizeText contentRaw 2000
      match getTruthy idRaw with
      | none => (.error ⟨400, "Valid comment id is required"⟩, db)
      | some id =>
        if isValidUUID id = false then
          (.error ⟨400, "Valid comment id is required"⟩, db)
        else
          match content with
          | none => (.error ⟨400, "Comment content is required"⟩, db)
          | some cont =>
            if cont = "" then
              (.error ⟨400, "Comment content is required"⟩, db)
            else
              match db.comments.find? (fun c => c.id == id) with
              | none => (.error ⟨404, "Comment not found"⟩, db)
              | some existing =>
                if existing.user_id != user.id then
                  (.error ⟨403, "Unauthorized"⟩, db)
                else
                  (.ok { existing with content := cont },
                    { db with
                        comments := List.map
                          (fun c => if c.id == id then
                            { c with content := cont } else c)
                          db.comments })

/-- The target creator id the list handler resolves for a request: the
project's `creator_id` for a project target, the parent project's
`creator_id` for a track target. -/
def resolvedTargetCreator (db : DB)
    (projectIdRaw trackIdRaw : Option String) : Option String :=
  match getTruthy projectIdRaw, getTruthy trackIdRaw with
  | some pid, none =>
    (db.projects.find? (fun p => p.id == pid)).map (fun p => p.creator_id)
  | none, some tid => (getTrackProject db tid).map (fun p => p.creator_id)
  | _, _ => none

/-- The field names `increment_metric` accepts
(`p_field NOT IN ('plays', 'shares', 'adds')` raises otherwise). -/
def validMetricFields : List String := ["plays", "shares", "adds"]

/-- Read one metric field of a row. -/
def getField (m : MetricsRow) (f : String) : Int :=
  if f = "plays" then m.plays
  else if f = "shares" then m.shares
  else m.adds

/-- `SET field = field + 1` on one row. -/
def incField (m : MetricsRow) (f : String) : MetricsRow :=
  if f = "plays" then { m with plays := m.plays + 1 }
  else if f = "shares" then { m with shares := m.shares + 1 }
  else { m with adds := m.adds + 1 }

/-- The `increment_metric(p_project_id, p_field)` database function: reject
field names outside the allow-list, insert a zero row on first touch
(`ON CONFLICT DO NOTHING`), then increment the named field of the project's
row in the same atomic database-side operation. -/
def increment_metric (db : DB) (pid f : String) : Except String DB :=
  if f ∉ validMetricFields then .error "Invalid metric field"
  else
    let ms :=
      if db.project_metrics.any (fun m => m.project_id == pid) then
        db.project_metrics
      else
        db.project_metrics ++ [⟨pid, 0, 0, 0⟩]
    let ms2 := ms.map (fun m => if m.project_id == pid then incField m f else m)
    .ok { db with project_metrics := ms2 }

/-- One invocation of the atomic increment as a state transition (a failed
call leaves the datastore unchanged, as the callers ignore the RPC error). -/
def incrementStep (pid f : String) (db : DB) : DB :=
  match increment_metric db pid f with
  | .ok db2 => db2
  | .error _ => db

/-- The current value of a project's metric field (0 when no row exists). -/
def metricValue (db : DB) (pid f : String) : Int :=
  match db.project_metrics.find? (fun m => m.project_id == pid) with
  | none => 0
  | some m => getField m f

/-- Response of the library add handler: an error, the duplicate
acknowledgment (`\x7b message: 'Already in library' \x7d`, HTTP 200), or the
created entry (HTTP 201). -/
inductive LibraryResp where
  | err (status : Nat) (msg : String)
  | alreadyMessage (msg : String)
  | created (entry : LibraryRow)
deriving DecidableEq, Repr

/-- `POST /api/library`: authenticate, validate the project id, return the
duplicate acknowledgment when an entry for (user, project) already exists,
otherwise insert the entry and atomically bump the `adds` metric. -/
def libraryAdd (db : DB) (auth : Auth) (pidRaw : Option String)
    (newId : String) : LibraryResp × DB :=
  match auth with
  | none => (.err 401 "Unauthorized", db)
  | some privyId =>
    match getUserByPrivyId db privyId with
    | none => (.err 404 "User not found", db)
    | some user =>
      match getTruthy pidRaw with
      | none => (.err 400 "Valid project ID is required", db)
      | some pid =>
        if isValidUUID pid = false then
          (.err 400 "Valid project ID is required", db)
        else
          match db.user_projects.find?
              (fun e => e.user_id == user.id && e.project_id == pid) with
          | some _ => (.alreadyMessage "Already in library", db)
          | none =>
            let entry : LibraryRow := ⟨newId, user.id, pid, false⟩
            let db1 := { db with user_projects := db.user_projects ++ [entry] }
            (.created entry, incrementStep pid "adds" db1)

/-- The request body of the crypto-tip recording endpoint. -/
structure CryptoTipBody where
  creatorId : Option String
  amount : JVal
  tipperUsername : Option String
  message : Option String
  paymentId : Option String
  txHash : Option String
deriving DecidableEq, Repr

/-- The crypto-tip `POST`: validate presence and formats, bound the parsed
amount to [0.01, 500] dollars, reject an already-recorded transaction hash
with 409 before inserting, verify the creator, then insert the tip row. -/
def cryptoTipPost (db : DB) (body : CryptoTipBody) (newId : String) :
    Except ErrResp TipRow × DB :=
  match getTruthy body.creatorId, body.amount.jsTruthy,
      getTruthy body.txHash, getTruthy body.paymentId with
  | some creatorId, true, some txHash, some paymentId =>
    if isValidUUID creatorId = false then
      (.error ⟨400, "Invalid creator ID format"⟩, db)
    else if isValidTxHash txHash = false then
      (.error ⟨400, "Invalid transaction hash format"⟩, db)
    else
      match body.amount.parseFloat with
      | none => (.error ⟨400, "Amount must be between $0.01 and $500"⟩, db)
      | some q =>
        if q < 1/100 ∨ q > 500 then
          (.error ⟨400, "Amount must be between $0.01 and $500"⟩, db)
        else
          let amountInCents := jsRound (q * 100)
          let su := (getTruthy body.tipperUsername).map
            (fun s => jsSlice s 100)
          let sm := (getTruthy body.message).map (fun s => jsSlice s 500)
          match db.tips.find?
              (fun t => t.stripe_payment_intent_id == txHash) with
          | some _ =>
            (.error ⟨409, "This transaction has already been recorded"⟩, db)
          | none =>
            match db.users.find? (fun u => u.id == creatorId) with
            | none => (.error ⟨404, "Creator not found"⟩, db)
            | some _ =>
              let row : TipRow :=
                ⟨newId, creatorId, amountInCents, "usdc", su, sm,
                  txHash, paymentId, "completed", false⟩
              (.ok row, { db with tips := db.tips ++ [row] })
  | _, _, _, _ =>
    (.error ⟨400,
      "Missing required fields: creatorId, amount, txHash, and paymentId are required"⟩,
      db)

/-- The request body of the card-tip checkout-session endpoint. -/
structure CardTipBody where
  creatorId : Option String
  amount : JVal
  tipperUsername : Option String
  message : Option String
deriving DecidableEq, Repr

/-- Outcome of the card-tip endpoint: either a created payment session
(carrying the destination account, unit amount and platform fee) or an
error with no session. -/
inductive CardTipOutcome where
  | session (destination : String) (unitAmount : ℚ) (platformFee : Int)
  | err (status : Nat) (msg : String)
deriving DecidableEq, Repr

/-- The card-tip `POST`: validate presence, the creator id format, that the
amount is a number and lies in [100, 50000] minor units, then look up the
creator's payout account and create the checkout session. `feePercent`
stands for the configured platform fee percentage. -/
def cardTipPost (db : DB) (feePercent : ℚ) (body : CardTipBody) :
    CardTipOutcome :=
  match getTruthy body.creatorId, body.amount.jsTruthy with
  | some creatorId, true =>
    if isValidUUID creatorId = false then
      .err 400 "Invalid creator ID format"
    else
      match body.amount with
      | .num q =>
        if q < 100 ∨ q > 50000 then
          .err 400 "Amount must be between $1 and $500"
        else
          match db.users.find? (fun u => u.id == creatorId) with
          | none => .err 404 "Creator not found"
          | some creator =>
            match getTruthy creator.stripe_account_id with
            | none => .err 400 "Creator has not set up payments yet"
            | some account =>
              if creator.stripe_onboarding_complete == some true then
                .session account q (jsRound (q * (feePercent / 100)))
              else
                .err 400 "Creator has not set up payments yet"
      | _ => .err 400 "Amount must be a number"
  | _, _ => .err 400 "Creator ID and amount are required"

/-- A unique-constraint-checked insert into `users` (`privy_id` carries a
unique constraint): the insert errors without changing the table when a row
with the same external id already exists. -/
def insertUserUnique (users : List UserRow) (row : UserRow) :
    Except String (List UserRow × UserRow) :=
  if users.any (fun u => u.privy_id == row.privy_id) then
    .error "duplicate key value violates unique constraint"
  else
    .ok (users ++ [row], row)

/-- `getOrCreateUserByPrivyId`: look the caller up by external id; when
absent, insert a fresh row, and on a unique-constraint conflict re-fetch the
now-existing row instead of failing. `interference` models rows committed by
concurrent requests between the initial lookup and the insert. -/
def getOrCreateUserByPrivyId (db0 : DB) (interference : List UserRow)
    (privyId newId : String) : Option UserRow × DB :=
  match getUserByPrivyId db0 privyId with
  | some u => (some u, db0)
  | none =>
    let db1 := { db0 with users := db0.users ++ interference }
    match insertUserUnique db1.users
        ⟨newId, privyId, none, none, none, none⟩ with
    | .ok (users2, created) => (some created, { db1 with users := users2 })
    | .error _ => (getUserByPrivyId db1 privyId, db1)

/-- `POST /api/user` (login): return the existing user when one matches the
verified external id, otherwise insert one; a failed insert surfaces as a
500 error with no re-fetch. `interference` models rows committed by
concurrent requests between the lookup and the insert. -/
def userPost (db0 : DB) (interference : List UserRow) (auth : Auth)
    (email : Option String) (newId : String) :
    Except ErrResp UserRow × DB :=
  match auth with
  | none => (.error ⟨401, "Unauthorized"⟩, db0)
  | some privyId =>
    match db0.users.find? (fun u => u.privy_id == privyId) with
    | some u => (.ok u, db0)
    | none =>
      let db1 := { db0 with users := db0.users ++ interference }
      match insertUserUnique db1.users
          ⟨newId, privyId, none, email, none, none⟩ with
      | .ok (users2, created) => (.ok created, { db1 with users := users2 })
      | .error _ => (.error ⟨500, "Failed to create user"⟩, db1)

/-! ### Concrete fixtures used by witness and counterexample theorems -/

def uuidA : String := "aaaaaaaa-aaaa-aaaa-aaaa-aaaaaaaaaaaa"

def uuidB : String := "bbbbbbbb-bbbb-bbbb-bbbb-bbbbbbbbbbbb"

def uuidC : String := "cccccccc-cccc-cccc-cccc-cccccccccccc"

def uuidD : String := "dddddddd-dddd-dddd-dddd-dddddddddddd"

def txH : String :=
  "0x1111111111111111111111111111111111111111111111111111111111111111"

def userA : UserRow := ⟨"ua", "pA", some "alice", none, none, none⟩

def userB : UserRow := ⟨"ub", "pB", none, some "bob@example.com", none, none⟩

def wProj : ProjectRow := ⟨uuidA, "ub", some true⟩

def wProjHidden : ProjectRow := ⟨uuidB, "ub", some false⟩

def wCom : CommentRow := ⟨uuidC, "ua", some uuidA, none, "hello", none, 5⟩

def wDB : DB := ⟨[userA, userB], [wProj, wProjHidden], [], [wCom], [], [], []⟩

/-! ### Helper lemmas -/

theorem incField_project_id (m : MetricsRow) (f : String) :
    (incField m f).project_id = m.project_id := by
  unfold incField
  split
  · rfl
  · split <;> rfl

theorem getField_incField (m : MetricsRow) (f : String) :
    getField (incField m f) f = getField m f + 1 := by
  unfold getField incField
  by_cases hp : f = "plays"
  · simp [hp]
  · by_cases hs : f = "shares" <;> simp [hp, hs]

theorem find?_map_incField (l : List MetricsRow) (pid f : String) :
    (l.map (fun m => if m.project_id == pid then incField m f else m)).find?
        (fun m => m.project_id == pid) =
      (l.find? (fun m => m.project_id == pid)).map (fun m => incField m f) := by
  induction l with
  | nil => rfl
  | cons a t ih =>
    rw [List.map_cons]
    by_cases h : (a.project_id == pid) = true
    · have h2 : ((incField a f).project_id == pid) = true := by
        rw [incField_project_id]; exact h
      rw [if_pos h,
        List.find?_cons_of_pos (p := fun m : MetricsRow => m.project_id == pid) _ h2,
        List.find?_cons_of_pos (p := fun m : MetricsRow => m.project_id == pid) _ h]
      rfl
    · rw [if_neg h,
        List.find?_cons_of_neg (p := fun m : MetricsRow => m.project_id == pid) _ h,
        List.find?_cons_of_neg (p := fun m : MetricsRow => m.project_id == pid) _ h, ih]

theorem metricValue_incrementStep (db : DB) (pid f : String)
    (hf : f ∈ validMetricFields) :
    metricValue (incrementStep pid f db) pid f = metricValue db pid f + 1 := by
  have hmain : (incrementStep pid f db).project_metrics = List.map
      (fun m => if m.project_id == pid then incField m f else m)
      (if db.project_metrics.any (fun m => m.project_id == pid) then
        db.project_metrics
      else
        db.project_metrics ++ [⟨pid, 0, 0, 0⟩]) := by
    unfold incrementStep increment_metric
    rw [if_neg (not_not_intro hf)]
  unfold metricValue
  rw [hmain]
  by_cases hany : (db.project_metrics.any (fun m => m.project_id == pid)) = true
  · rw [if_pos hany, find?_map_incField]
    rcases hsome : db.project_metrics.find? (fun m => m.project_id == pid)
        with _ | m
    · rw [List.find?_eq_none] at hsome
      rw [List.any_eq_true] at hany
      obtain ⟨x, hx, hpx⟩ := hany
      exact absurd hpx (hsome x hx)
    · rw [hsome]
      simp [getField_incField]
  · have hfe : db.project_metrics.find? (fun m => m.project_id == pid)
        = none := by
      rw [List.find?_eq_none]
      rw [Bool.not_eq_true, List.any_eq_false] at hany
      exact hany
    rw [if_neg hany, List.map_append, List.find?_append, find?_map_incField,
      hfe]
    by_cases hp : f = "plays"
    · simp [hp, getField, incField]
    · by_cases hs : f = "shares" <;> simp [hp, hs, getField, incField]

/-- C4: for any number `n` of invocations of the atomic metric-increment
operation against the same project and allow-listed field, the resulting
counter equals its prior value plus exactly `n`; each invocation is the
single datastore-side operation `increment_metric`, so sequential
composition models any serializable concurrent execution with no lost
updates. -/
theorem metric_increment_adds_exactly_n (db : DB) (pid f : String) (n : Nat)
    (hf : f ∈ validMetricFields) :
    metricValue ((incrementStep pid f)^[n] db) pid f =
      metricValue db pid f + n := by
  induction n with
  | zero => simp
  | succ k ih =>
    rw [Function.iterate_succ_apply', metricValue_incrementStep _ _ _ hf, ih]
    push_cast
    ring

end Demo

namespace Demo

/-- Witness for the metric-increment theorem: three increments of `plays`
on a concrete datastore with no prior metrics row yield counter 3. -/
theorem metric_increment_adds_exactly_n_witness :
    "plays" ∈ validMetricFields ∧
    metricValue ((incrementStep uuidA "plays")^[3] wDB) uuidA "plays" =
      metricValue wDB uuidA "plays" + 3 :=
  ⟨by decide,
    by exact_mod_cast metric_increment_adds_exactly_n wDB uuidA "plays" 3 (by decide)⟩

/-- C2: for a project whose `sharing_enabled` flag is false, reading its
comment collection returns 404 Not Found — not an empty 200 list — for
every caller (the `auth` parameter is arbitrary: anonymous, unrelated, or
the creator), in both comment list handler variants; the caller's identity
is never consulted by the visibility gate. -/
theorem hidden_project_comments_not_found (db : DB) (auth : Auth)
    (pid : String) (project : ProjectRow)
    (hvalid : isValidUUID pid = true)
    (hfind : db.projects.find? (fun p => p.id == pid) = some project)
    (hshared : project.sharing_enabled = some false) :
    commentsGet db auth (some pid) none = .error ⟨404, "Project not found"⟩ ∧
    coopCommentsGet db auth (some pid) none =
      .error ⟨404, "Project not found"⟩ := by
  have hne : pid ≠ "" := by
    intro h
    rw [h] at hvalid
    exact absurd hvalid (by decide)
  constructor
  · unfold commentsGet
    simp [getTruthy, commentsGetProject, hne, hvalid, hfind, hshared]
  · unfold coopCommentsGet
    simp [getTruthy, commentsGetProject, hne, hvalid, hfind, hshared]

/-- Witness for C2: the hidden project's own creator (`pB` resolves to its
creator `userB`) still receives 404 from both handler variants. -/
theorem hidden_project_comments_not_found_witness :
    commentsGet wDB (some "pB") (some uuidB) none =
      .error ⟨404, "Project not found"⟩ ∧
    coopCommentsGet wDB (some "pB") (some uuidB) none =
      .error ⟨404, "Project not found"⟩ :=
  hidden_project_comments_not_found wDB (some "pB") uuidB wProjHidden
    (by decide) (by decide) (by decide)

end Demo

namespace Demo

theorem commentsGetProject_ok_shape (db : DB) (auth : Auth) (pid : String)
    (list : List EnhancedComment)
    (hok : commentsGetProject db auth pid = .ok list) :
    ∃ (project : ProjectRow) (cs : List CommentRow),
      db.projects.find? (fun p => p.id == pid) = some project ∧
      list = List.map (enhance db (getCurrentUser db auth) project.creator_id)
        cs := by
  unfold commentsGetProject at hok
  split at hok
  · exact Except.noConfusion hok
  · split at hok
    next => exact Except.noConfusion hok
    next project heq =>
      split at hok
      · exact Except.noConfusion hok
      · exact ⟨project, _, heq, (Except.ok.inj hok).symm⟩

theorem commentsGetTrack_ok_shape (db : DB) (auth : Auth) (tid : String)
    (list : List EnhancedComment)
    (hok : commentsGetTrack db auth tid = .ok list) :
    ∃ (project : ProjectRow) (cs : List CommentRow),
      getTrackProject db tid = some project ∧
      list = List.map (enhance db (getCurrentUser db auth) project.creator_id)
        cs := by
  unfold commentsGetTrack at hok
  split at hok
  · exact Except.noConfusion hok
  · split at hok
    next => exact Except.noConfusion hok
    next project heq =>
      split at hok
      · exact Except.noConfusion hok
      · exact ⟨project, _, heq, (Except.ok.inj hok).symm⟩

theorem commentsGet_ok_shape (db : DB) (auth : Auth) (pr tr : Option String)
    (list : List EnhancedComment)
    (hok : commentsGet db auth pr tr = .ok list) :
    ∃ (cid : String) (cs : List CommentRow),
      resolvedTargetCreator db pr tr = some cid ∧
      list = List.map (enhance db (getCurrentUser db auth) cid) cs := by
  unfold commentsGet at hok
  unfold resolvedTargetCreator
  rcases hp : getTruthy pr with _ | pid <;>
      rcases ht : getTruthy tr with _ | tid <;>
      simp only [hp, ht] at hok ⊢
  · exact Except.noConfusion hok
  · obtain ⟨project, cs, heq, hlist⟩ :=
      commentsGetTrack_ok_shape db auth tid list hok
    rw [heq]
    exact ⟨project.creator_id, cs, rfl, hlist⟩
  · obtain ⟨project, cs, heq, hlist⟩ :=
      commentsGetProject_ok_shape db auth pid list hok
    rw [heq]
    exact ⟨project.creator_id, cs, rfl, hlist⟩
  · exact Except.noConfusion hok

/-- C1: in the comment list response, `can_edit` is true iff the caller is
the comment's author; `can_delete` is true iff the caller is the author or
the resolved effective owner (the target project's creator); an anonymous
caller gets both flags false on every comment; and the comment update
operation rejects any caller other than the author with 403 Forbidden. -/
theorem comment_capability_policy :
    (∀ (db : DB) (auth : Auth) (pr tr : Option String)
        (list : List EnhancedComment) (e : EnhancedComment) (cid : String),
        commentsGet db auth pr tr = .ok list → e ∈ list →
        resolvedTargetCreator db pr tr = some cid → cid ≠ "" →
        (getCurrentUser db auth = none →
          e.can_edit = false ∧ e.can_delete = false) ∧
        (∀ u : UserRow, getCurrentUser db auth = some u →
          ((e.can_edit = true ↔ u.id = e.comment.user_id) ∧
           (e.can_delete = true ↔
             (u.id = e.comment.user_id ∨ u.id = cid))))) ∧
    (∀ (db : DB) (auth : Auth) (idRaw contentRaw : Option String)
        (privyId id : String) (user : UserRow) (existing : CommentRow),
        auth = some privyId → getUserByPrivyId db privyId = some user →
        getTruthy idRaw = some id → isValidUUID id = true →
        (∃ c, sanitizeText contentRaw 2000 = some c ∧ c ≠ "") →
        db.comments.find? (fun c => c.id == id) = some existing →
        existing.user_id ≠ user.id →
        commentsPatch db auth idRaw contentRaw =
          (.error ⟨403, "Unauthorized"⟩, db)) := by
  constructor
  · intro db auth pr tr list e cid hok he hres hcid
    obtain ⟨cid2, cs, hres2, hlist⟩ :=
      commentsGet_ok_shape db auth pr tr list hok
    rw [hres] at hres2
    obtain rfl : cid = cid2 := Option.some.inj hres2
    subst hlist
    obtain ⟨c, hc, rfl⟩ := List.mem_map.mp he
    constructor
    · intro hnone
      simp [enhance, hnone]
    · intro u hu
      rw [hu]
      constructor
      · simp [enhance, beq_iff_eq]
      · simp [enhance, beq_iff_eq, bne_iff_ne, hcid]
  · intro db auth idRaw contentRaw privyId id user existing hauth huser hid
      hvalid hcont hfind hne
    subst hauth
    obtain ⟨c, hc, hcne⟩ := hcont
    simp [commentsPatch, huser, hid, hvalid, hc, hcne, hfind, hne]

/-- The enriched comment the project creator `userB` sees for `wCom`. -/
def wEnh : EnhancedComment := ⟨wCom, "alice", false, true⟩

/-- The comment list the GET handler returns for `wProj`. -/
def wList : List EnhancedComment := [wEnh]

/-- Witness for C1: the target project's creator (`userB`), who is not the
author of `wCom`, sees `can_edit = false` and `can_delete = true`, and the
update handler rejects the creator's edit attempt with 403. -/
theorem comment_capability_policy_witness :
    ((wEnh.can_edit = true ↔ userB.id = wEnh.comment.user_id) ∧
     (wEnh.can_delete = true ↔
       (userB.id = wEnh.comment.user_id ∨ userB.id = "ub"))) ∧
    commentsPatch wDB (some "pB") (some uuidC) (some "hi there") =
      (.error ⟨403, "Unauthorized"⟩, wDB) := by
  constructor
  · exact (comment_capability_policy.1 wDB (some "pB") (some uuidA) none
      wList wEnh "ub" rfl (by decide) (by decide) (by decide)).2
      userB (by decide)
  · exact comment_capability_policy.2 wDB (some "pB") (some uuidC)
      (some "hi there") "pB" uuidC userB wCom rfl (by decide) (by decide)
      (by decide) ⟨"hi there", by decide, by decide⟩ (by decide) (by decide)

end Demo

namespace Demo

theorem cryptoTipPost_shape (db : DB) (body : CryptoTipBody)
    (newId : String) :
    (cryptoTipPost db body newId).2 = db ∨
    ∃ (row : TipRow) (txHash : String),
      getTruthy body.txHash = some txHash ∧
      row.stripe_payment_intent_id = txHash ∧
      db.tips.find? (fun t => t.stripe_payment_intent_id == txHash) = none ∧
      (cryptoTipPost db body newId).1 = .ok row ∧
      (cryptoTipPost db body newId).2 =
        { db with tips := db.tips ++ [row] } := by
  rcases h1 : getTruthy body.creatorId with _ | creatorId <;>
      rcases h2 : body.amount.jsTruthy with _ | _ <;>
      rcases h3 : getTruthy body.txHash with _ | txHash <;>
      rcases h4 : getTruthy body.paymentId with _ | paymentId <;>
      simp only [cryptoTipPost, h1, h2, h3, h4] <;>
      try (left; trivial)
  by_cases h5 : isValidUUID creatorId = false
  · rw [if_pos h5]
    left; rfl
  · rw [if_neg h5]
    by_cases h6 : isValidTxHash txHash = false
    · rw [if_pos h6]
      left; rfl
    · rw [if_neg h6]
      rcases h7 : body.amount.parseFloat with _ | q
      · left; rfl
      · by_cases h8 : q < 1/100 ∨ q > 500
        · simp only [if_pos h8]
          left; trivial
        · simp only [if_neg h8]
          rcases hfound : db.tips.find?
              (fun t => t.stripe_payment_intent_id == txHash) with _ | t
          · rw [hfound]
            rcases hcre : db.users.find? (fun u => u.id == creatorId)
                with _ | creator
            · rw [hcre]
              left; rfl
            · rw [hcre]
              right
              refine ⟨_, txHash, rfl, ?_, hfound, rfl, rfl⟩
              rfl
          · rw [hfound]
            left; rfl

/-- C3: submitting a crypto tip whose transaction hash equals one already
recorded returns 409 Conflict with the datastore unchanged; more generally,
no path of the handler inserts a row while a tip with the same payment
reference exists. -/
theorem crypto_tip_duplicate_conflict :
    (∀ (db : DB) (body : CryptoTipBody) (newId : String),
        (∃ t ∈ db.tips,
          getTruthy body.txHash = some t.stripe_payment_intent_id) →
        (cryptoTipPost db body newId).2 = db) ∧
    (∀ (db : DB) (body : CryptoTipBody)
        (newId creatorId txHash paymentId : String) (q : ℚ),
        getTruthy body.creatorId = some creatorId →
        body.amount.jsTruthy = true →
        getTruthy body.txHash = some txHash →
        getTruthy body.paymentId = some paymentId →
        isValidUUID creatorId = true → isValidTxHash txHash = true →
        body.amount.parseFloat = some q → ¬(q < 1/100 ∨ q > 500) →
        (∃ t ∈ db.tips, t.stripe_payment_intent_id = txHash) →
        cryptoTipPost db body newId =
          (.error ⟨409, "This transaction has already been recorded"⟩,
            db)) := by
  constructor
  · intro db body newId hdup
    obtain ⟨t, ht, href⟩ := hdup
    rcases cryptoTipPost_shape db body newId with h | h
    · exact h
    · obtain ⟨row, txHash, h3, hrowref, hfound, hok, hdb⟩ := h
      rw [h3] at href
      obtain rfl : t.stripe_payment_intent_id = txHash :=
        (Option.some.inj href).symm
      rw [List.find?_eq_none] at hfound
      exact absurd (by simp : (t.stripe_payment_intent_id ==
        t.stripe_payment_intent_id) = true) (hfound t ht)
  · intro db body newId creatorId txHash paymentId q h1 h2 h3 h4 h5 h6 h7 h8
      hdup
    have hfind : (db.tips.find?
        (fun t => t.stripe_payment_intent_id == txHash)).isSome := by
      rw [List.find?_isSome]
      obtain ⟨t, ht, href⟩ := hdup
      exact ⟨t, ht, by simp [href]⟩
    rcases hfound : db.tips.find?
        (fun t => t.stripe_payment_intent_id == txHash) with _ | t
    · rw [hfound] at hfind
      simp at hfind
    · simp only [cryptoTipPost, h1, h2, h3, h4]
      rw [if_neg (by simp [h5]), if_neg (by simp [h6]), h7]
      simp only [if_neg h8]
      rw [hfound]

/-- The concrete tip row already recorded for the transaction hash `txH`. -/
def wTip : TipRow :=
  ⟨"t0", "ub", 500, "usdc", none, none, txH, "pay0", "completed", false⟩

/-- A datastore that already contains `wTip`. -/
def wDBTip : DB := { wDB with tips := [wTip] }

/-- Witness for C3: resubmitting the already-recorded transaction hash with
an otherwise valid request yields 409 and leaves the tips unchanged. -/
theorem crypto_tip_duplicate_conflict_witness :
    cryptoTipPost wDBTip
      ⟨some uuidD, .num 5, none, none, some "pay1", some txH⟩ "t1" =
      (.error ⟨409, "This transaction has already been recorded"⟩, wDBTip) :=
  crypto_tip_duplicate_conflict.2 wDBTip
    ⟨some uuidD, .num 5, none, none, some "pay1", some txH⟩ "t1" uuidD txH
    "pay1" 5 (by decide) (by norm_num [JVal.jsTruthy]) (by decide) (by decide)
    (by decide) (by decide) rfl (by norm_num) ⟨wTip, by decide, by decide⟩

end Demo

namespace Demo

/-- C10: tip amounts are bounded at the public interface: a card-tip request
whose amount is not a number, or is a number outside [100, 50000] minor
units, is rejected with 400 and no payment session is created; a crypto-tip
request whose parsed amount lies outside [0.01, 500] dollars is rejected
with 400 and no tip row is inserted. -/
theorem tip_amount_bounds :
    (∀ (db : DB) (fee : ℚ) (body : CardTipBody),
        ((∀ q : ℚ, body.amount ≠ .num q) ∨
          (∃ q : ℚ, body.amount = .num q ∧ (q < 100 ∨ q > 50000))) →
        ∃ msg, cardTipPost db fee body = .err 400 msg) ∧
    (∀ (db : DB) (body : CryptoTipBody) (newId : String) (q : ℚ),
        body.amount.parseFloat = some q → (q < 1/100 ∨ q > 500) →
        (∃ msg, (cryptoTipPost db body newId).1 = .error ⟨400, msg⟩) ∧
        (cryptoTipPost db body newId).2 = db) := by
  constructor
  · intro db fee body hbad
    unfold cardTipPost
    rcases h1 : getTruthy body.creatorId with _ | creatorId <;>
        rcases h2 : body.amount.jsTruthy with _ | _ <;>
        simp only [h1, h2] <;>
        try exact ⟨_, rfl⟩
    by_cases h5 : isValidUUID creatorId = false
    · rw [if_pos h5]
      exact ⟨_, rfl⟩
    · rw [if_neg h5]
      rcases ha : body.amount with _ | _ | qq | ⟨t, p, tn⟩
      · rw [ha] at h2
        simp [JVal.jsTruthy] at h2
      · rw [ha] at h2
        simp [JVal.jsTruthy] at h2
      · rw [ha] at hbad
        have hq : qq < 100 ∨ qq > 50000 := by
          rcases hbad with hall | ⟨q, hq1, hq2⟩
          · exact absurd rfl (hall qq)
          · obtain rfl : qq = q := JVal.num.inj hq1
            exact hq2
        simp only [if_pos hq]
        exact ⟨_, rfl⟩
      · exact ⟨_, rfl⟩
  · intro db body newId q h7 h8
    rcases h1 : getTruthy body.creatorId with _ | creatorId <;>
        rcases h2 : body.amount.jsTruthy with _ | _ <;>
        rcases h3 : getTruthy body.txHash with _ | txHash <;>
        rcases h4 : getTruthy body.paymentId with _ | paymentId <;>
        simp only [cryptoTipPost, h1, h2, h3, h4] <;>
        try exact ⟨⟨_, rfl⟩, by first | rfl | trivial⟩
    by_cases h5 : isValidUUID creatorId = false
    · rw [if_pos h5]
      exact ⟨⟨_, rfl⟩, rfl⟩
    · rw [if_neg h5]
      by_cases h6 : isValidTxHash txHash = false
      · rw [if_pos h6]
        exact ⟨⟨_, rfl⟩, rfl⟩
      · rw [if_neg h6, h7]
        simp only [if_pos h8]
        exact ⟨⟨_, rfl⟩, by first | rfl | trivial⟩

/-- Witness for C10: a card tip of 50 minor units (below the 100 minimum)
is rejected with 400, and a crypto tip of 1000 dollars (above the 500
maximum) is rejected with 400 leaving the datastore unchanged. -/
theorem tip_amount_bounds_witness :
    (∃ msg, cardTipPost wDB 10 ⟨some uuidD, .num 50, none, none⟩ =
      .err 400 msg) ∧
    ((∃ msg, (cryptoTipPost wDB
        ⟨some uuidD, .num 1000, none, none, some "p", some txH⟩ "t9").1 =
        .error ⟨400, msg⟩) ∧
      (cryptoTipPost wDB
        ⟨some uuidD, .num 1000, none, none, some "p", some txH⟩ "t9").2 =
        wDB) :=
  ⟨tip_amount_bounds.1 wDB 10 ⟨some uuidD, .num 50, none, none⟩
      (Or.inr ⟨50, rfl, Or.inl (by norm_num)⟩),
    tip_amount_bounds.2 wDB
      ⟨some uuidD, .num 1000, none, none, some "p", some txH⟩ "t9" 1000 rfl
      (Or.inr (by norm_num))⟩

/-- The library entry already present for `userA` and project `uuidA`. -/
def wLibEntry : LibraryRow := ⟨"L1", "ua", uuidA, false⟩

/-- A datastore in which `userA` already has project `uuidA` in their
library. -/
def wDBLib : DB := { wDB with user_projects := [wLibEntry] }

/-- Counterexample for C5 as stated: with the (user, project) entry already
present, the second add call succeeds and inserts nothing, but its response
carries only the acknowledgment message — it does not return the existing
entry. -/
theorem library_add_returns_message_cx :
    libraryAdd wDBLib (some "pA") (some uuidA) "L2" =
      (.alreadyMessage "Already in library", wDBLib) := by decide

/-- C5 (amended): when a LibraryEntry for the (user, project) pair already
exists, the add operation inserts no second row — the datastore is
returned unchanged — and the call succeeds with the acknowledgment message
rather than the existing entry. -/
theorem library_add_idempotent_rows (db : DB) (auth : Auth)
    (pidRaw : Option String) (newId privyId pid : String) (user : UserRow)
    (hauth : auth = some privyId)
    (huser : getUserByPrivyId db privyId = some user)
    (hpid : getTruthy pidRaw = some pid)
    (hvalid : isValidUUID pid = true)
    (hex : ∃ e ∈ db.user_projects,
      e.user_id = user.id ∧ e.project_id = pid) :
    libraryAdd db auth pidRaw newId =
      (.alreadyMessage "Already in library", db) := by
  subst hauth
  have hfind : (db.user_projects.find?
      (fun e => e.user_id == user.id && e.project_id == pid)).isSome := by
    rw [List.find?_isSome]
    obtain ⟨e, he, h1, h2⟩ := hex
    exact ⟨e, he, by simp [h1, h2]⟩
  rcases hfound : db.user_projects.find?
      (fun e => e.user_id == user.id && e.project_id == pid) with _ | e
  · rw [hfound] at hfind
    simp at hfind
  · unfold libraryAdd
    simp [huser, hpid, hvalid, hfound]

/-- Witness for the amended C5 on the concrete datastore `wDBLib`. -/
theorem library_add_idempotent_rows_witness :
    libraryAdd wDBLib (some "pA") (some uuidA) "L2" =
      (.alreadyMessage "Already in library", wDBLib) :=
  library_add_idempotent_rows wDBLib (some "pA") (some uuidA) "L2" "pA"
    uuidA userA rfl (by decide) (by decide) (by decide)
    ⟨wLibEntry, by decide, by decide, by decide⟩

end Demo

namespace Demo

/-- The `comments_target_check` schema constraint: exactly one of
`project_id` and `track_id` is non-null. -/
def exactlyOneTarget (c : CommentRow) : Prop :=
  (c.project_id ≠ none ∧ c.track_id = none) ∨
  (c.project_id = none ∧ c.track_id ≠ none)

theorem commentsPost_shape (db : DB) (auth : Auth) (body : CommentPostBody)
    (newId : String) (now : Nat) :
    ((commentsPost db auth body newId now).2 = db ∧
      ∃ e, (commentsPost db auth body newId now).1 = .error e) ∨
    ∃ row, (commentsPost db auth body newId now).1 = .ok row ∧
      (commentsPost db auth body newId now).2 =
        { db with comments := db.comments ++ [row] } ∧
      (∃ cont, sanitizeText body.content 2000 = some cont ∧
        row.content = cont) ∧
      ((∃ pid, getTruthy body.project_id = some pid ∧
          row.project_id = some pid ∧ row.track_id = none ∧
          row.timestamp_seconds = none) ∨
       (∃ tid ts, getTruthy body.track_id = some tid ∧
          row.project_id = none ∧ row.track_id = some tid ∧
          body.timestamp_seconds.toNumber = some ts ∧ 0 ≤ ts ∧
          row.timestamp_seconds = some ⌊ts⌋)) := by
  rcases auth with _ | privyId
  · exact Or.inl ⟨by trivial, _, rfl⟩
  · simp only [commentsPost]
    rcases hu : getUserByPrivyId db privyId with _ | user <;> simp only [hu]
    · exact Or.inl ⟨by trivial, _, rfl⟩
    · rcases hp : getTruthy body.project_id with _ | pid <;>
          rcases ht : getTruthy body.track_id with _ | tid <;>
          simp only [hp, ht]
      · exact Or.inl ⟨by trivial, _, rfl⟩
      · rcases hc : sanitizeText body.content 2000 with _ | cont <;>
            simp only [hc]
        · exact Or.inl ⟨by trivial, _, rfl⟩
        · by_cases hce : cont = ""
          · simp only [if_pos hce]
            exact Or.inl ⟨by trivial, _, rfl⟩
          · simp only [if_neg hce]
            by_cases hv : isValidUUID tid = false
            · simp only [if_pos hv]
              exact Or.inl ⟨by trivial, _, rfl⟩
            · simp only [if_neg hv]
              rcases hg : getTrackProject db tid with _ | project <;>
                  simp only [hg]
              · exact Or.inl ⟨by trivial, _, rfl⟩
              · by_cases hsh : (project.sharing_enabled == some false) = true
                · simp only [if_pos hsh]
                  exact Or.inl ⟨by trivial, _, rfl⟩
                · simp only [if_neg hsh]
                  rcases hts : body.timestamp_seconds.toNumber with _ | ts <;>
                      simp only [hts]
                  · exact Or.inl ⟨by trivial, _, rfl⟩
                  · by_cases hneg : ts < 0
                    · simp only [if_pos hneg]
                      exact Or.inl ⟨by trivial, _, rfl⟩
                    · simp only [if_neg hneg]
                      right
                      refine ⟨_, rfl, rfl, ⟨cont, ?_, rfl⟩,
                        Or.inr ⟨tid, ts, ?_, rfl, rfl, ?_, ?_, rfl⟩⟩
                      · rfl
                      · rfl
                      · rfl
                      · exact not_lt.mp hneg
      · rcases hc : sanitizeText body.content 2000 with _ | cont <;>
            simp only [hc]
        · exact Or.inl ⟨by trivial, _, rfl⟩
        · by_cases hce : cont = ""
          · simp only [if_pos hce]
            exact Or.inl ⟨by trivial, _, rfl⟩
          · simp only [if_neg hce]
            by_cases hv : isValidUUID pid = false
            · simp only [if_pos hv]
              exact Or.inl ⟨by trivial, _, rfl⟩
            · simp only [if_neg hv]
              rcases hg : db.projects.find? (fun p => p.id == pid)
                  with _ | project <;> simp only [hg]
              · exact Or.inl ⟨by trivial, _, rfl⟩
              · by_cases hsh : (project.sharing_enabled == some false) = true
                · simp only [if_pos hsh]
                  exact Or.inl ⟨by trivial, _, rfl⟩
                · simp only [if_neg hsh]
                  right
                  refine ⟨_, rfl, rfl, ⟨cont, ?_, rfl⟩,
                    Or.inl ⟨pid, ?_, rfl, rfl, rfl⟩⟩
                  · rfl
                  · rfl
      · exact Or.inl ⟨by trivial, _, rfl⟩

end Demo

namespace Demo

/-- C6: the comment-create handler rejects a request supplying both targets
or neither target with 400 InvalidInput before any row is inserted, and it
preserves the schema invariant (`comments_target_check`) that every stored
comment has exactly one of `project_id` and `track_id` non-null. -/
theorem comment_target_exactly_one :
    (∀ (db : DB) (auth : Auth) (body : CommentPostBody) (newId : String)
        (now : Nat) (privyId : String) (user : UserRow),
        auth = some privyId → getUserByPrivyId db privyId = some user →
        ((getTruthy body.project_id = none ∧
            getTruthy body.track_id = none) ∨
         ((getTruthy body.project_id).isSome ∧
           (getTruthy body.track_id).isSome)) →
        commentsPost db auth body newId now =
          (.error ⟨400, "Provide either project_id or track_id"⟩, db)) ∧
    (∀ (db : DB) (auth : Auth) (body : CommentPostBody) (newId : String)
        (now : Nat),
        (∀ c ∈ db.comments, exactlyOneTarget c) →
        ∀ c ∈ (commentsPost db auth body newId now).2.comments,
          exactlyOneTarget c) := by
  constructor
  · intro db auth body newId now privyId user hauth huser htarget
    subst hauth
    simp only [commentsPost, huser]
    rcases htarget with ⟨hp, ht⟩ | ⟨hp, ht⟩
    · simp only [hp, ht]
    · rw [Option.isSome_iff_exists] at hp ht
      obtain ⟨pid, hp⟩ := hp
      obtain ⟨tid, ht⟩ := ht
      simp only [hp, ht]
  · intro db auth body newId now hinv c hc
    rcases commentsPost_shape db auth body newId now with
        ⟨hdb, _, _⟩ | ⟨row, hok, hdb, hcont, htarget⟩
    · rw [hdb] at hc
      exact hinv c hc
    · rw [hdb] at hc
      rcases List.mem_append.mp hc with hcm | hcm
      · exact hinv c hcm
      · obtain rfl : c = row := List.mem_singleton.mp hcm
        rcases htarget with ⟨pid, hp, h1, h2, h3⟩ |
            ⟨tid, ts, ht2, h1, h2, h3, h4, h5⟩
        · exact Or.inl ⟨by simp [h1], h2⟩
        · exact Or.inr ⟨h1, by simp [h2]⟩

/-- Witness for C6: a request naming both a project and a track is rejected
with 400 leaving the datastore unchanged, and the row inserted by a valid
single-target request satisfies the exactly-one-target invariant. -/
theorem comment_target_exactly_one_witness :
    commentsPost wDB (some "pA")
        ⟨some uuidA, some uuidB, some "x", .undef⟩ "nid" 9 =
      (.error ⟨400, "Provide either project_id or track_id"⟩, wDB) ∧
    exactlyOneTarget ⟨"nid", "ua", some uuidA, none, "x", none, 9⟩ := by
  constructor
  · exact comment_target_exactly_one.1 wDB (some "pA")
      ⟨some uuidA, some uuidB, some "x", .undef⟩ "nid" 9 "pA" userA rfl
      (by decide) (Or.inr ⟨by decide, by decide⟩)
  · exact comment_target_exactly_one.2 wDB (some "pA")
      ⟨some uuidA, none, some "x", .undef⟩ "nid" 9
      (by
        intro c hc
        obtain rfl := List.mem_singleton.mp hc
        exact Or.inl ⟨by decide, rfl⟩)
      ⟨"nid", "ua", some uuidA, none, "x", none, 9⟩ (by decide)

/-- C7: a stored project-targeted comment carries no timestamp, a stored
track-targeted comment carries a non-negative timestamp, and a
track-targeted create whose timestamp is missing (NaN) or negative is
rejected with 400 and inserts nothing. -/
theorem comment_track_timestamp :
    (∀ (db : DB) (auth : Auth) (body : CommentPostBody) (newId : String)
        (now : Nat) (row : CommentRow),
        (commentsPost db auth body newId now).1 = .ok row →
        row.project_id ≠ none → row.timestamp_seconds = none) ∧
    (∀ (db : DB) (auth : Auth) (body : CommentPostBody) (newId : String)
        (now : Nat) (row : CommentRow),
        (commentsPost db auth body newId now).1 = .ok row →
        row.track_id ≠ none →
        ∃ t : ℤ, row.timestamp_seconds = some t ∧ 0 ≤ t) ∧
    (∀ (db : DB) (auth : Auth) (body : CommentPostBody) (newId : String)
        (now : Nat) (privyId : String) (user : UserRow)
        (cont tid : String) (project : ProjectRow),
        auth = some privyId → getUserByPrivyId db privyId = some user →
        getTruthy body.project_id = none →
        getTruthy body.track_id = some tid →
        sanitizeText body.content 2000 = some cont → cont ≠ "" →
        isValidUUID tid = true →
        getTrackProject db tid = some project →
        ¬ project.sharing_enabled = some false →
        (body.timestamp_seconds.toNumber = none ∨
          ∃ ts, body.timestamp_seconds.toNumber = some ts ∧ ts < 0) →
        commentsPost db auth body newId now =
          (.error ⟨400,
            "Valid non-negative timestamp_seconds is required for track comments"⟩,
            db)) := by
  refine ⟨?_, ?_, ?_⟩
  · intro db auth body newId now row hok hpid
    rcases commentsPost_shape db auth body newId now with
        ⟨_, e, he⟩ | ⟨row2, hok2, _, _, htarget⟩
    · rw [hok] at he
      exact Except.noConfusion he
    · rw [hok] at hok2
      obtain rfl : row = row2 := Except.ok.inj hok2
      rcases htarget with ⟨pid, hp, h1, h2, h3⟩ |
          ⟨tid, ts, ht2, h1, h2, h3, h4, h5⟩
      · exact h3
      · exact absurd h1 hpid
  · intro db auth body newId now row hok htid
    rcases commentsPost_shape db auth body newId now with
        ⟨_, e, he⟩ | ⟨row2, hok2, _, _, htarget⟩
    · rw [hok] at he
      exact Except.noConfusion he
    · rw [hok] at hok2
      obtain rfl : row = row2 := Except.ok.inj hok2
      rcases htarget with ⟨pid, hp, h1, h2, h3⟩ |
          ⟨tid, ts, ht2, h1, h2, h3, h4, h5⟩
      · exact absurd h2 htid
      · exact ⟨⌊ts⌋, h5, Int.le_floor.mpr (by exact_mod_cast h4)⟩
  · intro db auth body newId now privyId user cont tid project hauth huser
      hp ht hc hcne hv hg hsh hts
    subst hauth
    simp only [commentsPost, huser, hp, ht, hc]
    rw [if_neg hcne, if_neg (by simp [hv] : ¬ isValidUUID tid = false)]
    simp only [hg]
    rw [if_neg (by simp [hsh] :
      ¬ (project.sharing_enabled == some false) = true)]
    rcases hts with htsn | ⟨ts, hts2, hlt⟩
    · simp only [htsn]
    · simp only [hts2, if_pos hlt]

end Demo

namespace Demo

/-- A track belonging to the visible project `wProj`. -/
def wTrack : TrackRow := ⟨uuidD, some uuidA⟩

/-- The concrete datastore with the track `wTrack` present. -/
def wDBTrack : DB := { wDB with tracks := [wTrack] }

/-- Witness for C7: a stored project comment has no timestamp, a stored
track comment has a non-negative one, and a track create with a negative
timestamp is rejected with 400 leaving the datastore unchanged. -/
theorem comment_track_timestamp_witness :
    (⟨"nid", "ua", some uuidA, none, "x", none, 9⟩ :
      CommentRow).timestamp_seconds = none ∧
    (∃ t : ℤ, (⟨"nid", "ua", none, some uuidD, "x", some 0, 9⟩ :
      CommentRow).timestamp_seconds = some t ∧ 0 ≤ t) ∧
    commentsPost wDBTrack (some "pA")
        ⟨none, some uuidD, some "x", .num (-1)⟩ "nid" 9 =
      (.error ⟨400,
        "Valid non-negative timestamp_seconds is required for track comments"⟩,
        wDBTrack) := by
  refine ⟨?_, ?_, ?_⟩
  · exact comment_track_timestamp.1 wDB (some "pA")
      ⟨some uuidA, none, some "x", .undef⟩ "nid" 9 _ rfl (by decide)
  · exact comment_track_timestamp.2.1 wDBTrack (some "pA")
      ⟨none, some uuidD, some "x", .num 0⟩ "nid" 9 _ rfl (by decide)
  · exact comment_track_timestamp.2.2 wDBTrack (some "pA")
      ⟨none, some uuidD, some "x", .num (-1)⟩ "nid" 9 "pA" userA "x" uuidD
      wProj rfl (by decide) rfl (by decide) (by decide) (by decide)
      (by decide) (by decide) (by decide)
      (Or.inr ⟨-1, rfl, by norm_num⟩)

end Demo

namespace Demo

/-- A submission one character longer than the 2000-character maximum. -/
def longContent : String := String.mk (List.replicate 2001 'a')

theorem dropWhile_replicate_a (n : Nat) :
    List.dropWhile isJsWhitespace (List.replicate n 'a') =
      List.replicate n 'a' := by
  cases n with
  | zero => rfl
  | succ k =>
    rw [List.replicate_succ, List.dropWhile_cons]
    simp [show isJsWhitespace 'a' = false from by decide]

theorem jsTrim_longContent : jsTrim longContent = longContent := by
  unfold jsTrim longContent
  rw [show (String.mk (List.replicate 2001 'a')).data =
      List.replicate 2001 'a' from rfl]
  rw [dropWhile_replicate_a, List.reverse_replicate, dropWhile_replicate_a,
    List.reverse_replicate]

/-- Counterexample for C8 as stated: a 2001-character content exceeds the
2000-character maximum, yet the create handler accepts it (201 with the
row, not InvalidInput) and stores the truncated text, which differs from
the submitted content. -/
theorem comment_overlong_content_accepted_cx :
    (commentsPost wDB (some "pA")
        ⟨some uuidA, none, some longContent, .undef⟩ "nid" 9).1 =
      .ok ⟨"nid", "ua", some uuidA, none,
        String.mk (List.replicate 2000 'a'), none, 9⟩ ∧
    String.mk (List.replicate 2000 'a') ≠ longContent := by
  have hne : longContent ≠ "" := by
    intro h
    have h2 := congrArg (fun s : String => s.data.length) h
    simp only [] at h2
    rw [show longContent.data = List.replicate 2001 'a' from rfl,
      List.length_replicate] at h2
    exact absurd h2 (by decide)
  have hsan : sanitizeText (some longContent) 2000 =
      some (String.mk (List.replicate 2000 'a')) := by
    simp only [sanitizeText, if_neg hne, jsTrim_longContent]
    unfold jsSlice longContent
    rw [show (String.mk (List.replicate 2001 'a')).data =
        List.replicate 2001 'a' from rfl]
    rw [List.take_replicate]
    norm_num
  have hcne : String.mk (List.replicate 2000 'a') ≠ "" := by
    intro h
    have h2 := congrArg (fun s : String => s.data.length) h
    simp only [] at h2
    rw [List.length_replicate] at h2
    exact absurd h2 (by decide)
  constructor
  · have huser : getUserByPrivyId wDB "pA" = some userA := by decide
    have hfind : wDB.projects.find? (fun p => p.id == uuidA) =
        some wProj := by decide
    simp only [commentsPost, huser,
      show getTruthy (some uuidA) = some uuidA from by decide,
      show getTruthy none = none from rfl, hsan]
    rw [if_neg hcne, if_neg (show ¬ isValidUUID uuidA = false from
      by decide)]
    simp only [hfind]
    rw [if_neg (show ¬ (wProj.sharing_enabled == some false) = true from
      by decide)]
    rfl
  · intro h
    have h2 := congrArg (fun s : String => s.data.length) h
    simp only [] at h2
    rw [show longContent.data = List.replicate 2001 'a' from rfl,
      List.length_replicate, List.length_replicate] at h2
    exact absurd h2 (by decide)

theorem commentsPatch_ok_content (db : DB) (auth : Auth)
    (idRaw contentRaw : Option String) (row : CommentRow)
    (hok : (commentsPatch db auth idRaw contentRaw).1 = .ok row) :
    ∃ cont, sanitizeText contentRaw 2000 = some cont ∧
      row.content = cont := by
  rcases auth with _ | privyId
  · exact Except.noConfusion hok
  · simp only [commentsPatch] at hok
    rcases hu : getUserByPrivyId db privyId with _ | user <;>
        simp only [hu] at hok
    · exact Except.noConfusion hok
    · rcases hid : getTruthy idRaw with _ | id <;> simp only [hid] at hok
      · exact Except.noConfusion hok
      · by_cases hv : isValidUUID id = false
        · simp only [if_pos hv] at hok
          exact Except.noConfusion hok
        · simp only [if_neg hv] at hok
          rcases hc : sanitizeText contentRaw 2000 with _ | cont <;>
              simp only [hc] at hok
          · exact Except.noConfusion hok
          · by_cases hce : cont = ""
            · simp only [if_pos hce] at hok
              exact Except.noConfusion hok
            · simp only [if_neg hce] at hok
              rcases hf : db.comments.find? (fun c => c.id == id)
                  with _ | existing <;> simp only [hf] at hok
              · exact Except.noConfusion hok
              · by_cases hne : (existing.user_id != user.id) = true
                · simp only [if_pos hne] at hok
                  exact Except.noConfusion hok
                · simp only [if_neg hne] at hok
                  refine ⟨cont, rfl, ?_⟩
                  rw [← Except.ok.inj hok]

/-- C8 (amended): comment create and update reject content that is empty or
whitespace-only after trimming with 400 InvalidInput, while content longer
than the 2000-character maximum is not rejected but truncated; the stored
content equals the submitted content trimmed and cut to 2000 characters. -/
theorem comment_content_sanitization :
    (∀ (db : DB) (auth : Auth) (body : CommentPostBody) (newId : String)
        (now : Nat) (privyId : String) (user : UserRow),
        auth = some privyId → getUserByPrivyId db privyId = some user →
        (((getTruthy body.project_id).isSome ∧
            getTruthy body.track_id = none) ∨
          (getTruthy body.project_id = none ∧
            (getTruthy body.track_id).isSome)) →
        (sanitizeText body.content 2000 = none ∨
          sanitizeText body.content 2000 = some "") →
        commentsPost db auth body newId now =
          (.error ⟨400, "Comment content is required"⟩, db)) ∧
    (∀ (db : DB) (auth : Auth) (idRaw contentRaw : Option String)
        (privyId id : String) (user : UserRow),
        auth = some privyId → getUserByPrivyId db privyId = some user →
        getTruthy idRaw = some id → isValidUUID id = true →
        (sanitizeText contentRaw 2000 = none ∨
          sanitizeText contentRaw 2000 = some "") →
        commentsPatch db auth idRaw contentRaw =
          (.error ⟨400, "Comment content is required"⟩, db)) ∧
    (∀ (db : DB) (auth : Auth) (body : CommentPostBody) (newId : String)
        (now : Nat) (row : CommentRow) (s : String),
        (commentsPost db auth body newId now).1 = .ok row →
        body.content = some s →
        row.content = jsSlice (jsTrim s) 2000) ∧
    (∀ (db : DB) (auth : Auth) (idRaw contentRaw : Option String)
        (row : CommentRow) (s : String),
        (commentsPatch db auth idRaw contentRaw).1 = .ok row →
        contentRaw = some s →
        row.content = jsSlice (jsTrim s) 2000) := by
  refine ⟨?_, ?_, ?_, ?_⟩
  · intro db auth body newId now privyId user hauth huser htarget hcont
    subst hauth
    simp only [commentsPost, huser]
    rcases htarget with ⟨hp, ht⟩ | ⟨hp, ht⟩
    · rw [Option.isSome_iff_exists] at hp
      obtain ⟨pid, hp⟩ := hp
      simp only [hp, ht]
      rcases hcont with hcn | hcs
      · simp only [hcn]
      · simp [hcs]
    · rw [Option.isSome_iff_exists] at ht
      obtain ⟨tid, ht⟩ := ht
      simp only [hp, ht]
      rcases hcont with hcn | hcs
      · simp only [hcn]
      · simp [hcs]
  · intro db auth idRaw contentRaw privyId id user hauth huser hid hv hcont
    subst hauth
    simp only [commentsPatch, huser, hid]
    rw [if_neg (by simp [hv] : ¬ isValidUUID id = false)]
    rcases hcont with hcn | hcs
    · simp only [hcn]
    · simp [hcs]
  · intro db auth body newId now row s hok hs
    rcases commentsPost_shape db auth body newId now with
        ⟨_, e, he⟩ | ⟨row2, hok2, _, hcont, _⟩
    · rw [hok] at he
      exact Except.noConfusion he
    · rw [hok] at hok2
      obtain rfl : row = row2 := Except.ok.inj hok2
      obtain ⟨cont, hc, hrc⟩ := hcont
      rw [hs] at hc
      simp only [sanitizeText] at hc
      by_cases hse : s = ""
      · rw [if_pos hse] at hc
        exact Option.noConfusion hc
      · rw [if_neg hse] at hc
        rw [hrc, ← Option.some.inj hc]
  · intro db auth idRaw contentRaw row s hok hs
    obtain ⟨cont, hc, hrc⟩ := commentsPatch_ok_content db auth idRaw
      contentRaw row hok
    rw [hs] at hc
    simp only [sanitizeText] at hc
    by_cases hse : s = ""
    · rw [if_pos hse] at hc
      exact Option.noConfusion hc
    · rw [if_neg hse] at hc
      rw [hrc, ← Option.some.inj hc]

/-- Witness for the amended C8: whitespace-only content is rejected by both
create and update; a created and an updated comment store the trimmed,
truncated submission. -/
theorem comment_content_sanitization_witness :
    commentsPost wDB (some "pA") ⟨some uuidA, none, some "   ", .undef⟩
        "nid" 9 =
      (.error ⟨400, "Comment content is required"⟩, wDB) ∧
    commentsPatch wDB (some "pA") (some uuidC) (some "   ") =
      (.error ⟨400, "Comment content is required"⟩, wDB) ∧
    (⟨"nid", "ua", some uuidA, none, "hello", none, 9⟩ :
      CommentRow).content = jsSlice (jsTrim " hello ") 2000 ∧
    (⟨uuidC, "ua", some uuidA, none, "x", none, 5⟩ :
      CommentRow).content = jsSlice (jsTrim " x ") 2000 := by
  refine ⟨?_, ?_, ?_, ?_⟩
  · exact comment_content_sanitization.1 wDB (some "pA")
      ⟨some uuidA, none, some "   ", .undef⟩ "nid" 9 "pA" userA rfl
      (by decide) (Or.inl ⟨by decide, rfl⟩) (Or.inr (by decide))
  · exact comment_content_sanitization.2.1 wDB (some "pA") (some uuidC)
      (some "   ") "pA" uuidC userA rfl (by decide) (by decide) (by decide)
      (Or.inr (by decide))
  · exact comment_content_sanitization.2.2.1 wDB (some "pA")
      ⟨some uuidA, none, some " hello ", .undef⟩ "nid" 9 _ " hello "
      rfl rfl
  · exact comment_content_sanitization.2.2.2 wDB (some "pA") (some uuidC)
      (some " x ") _ " x " rfl rfl

end Demo

namespace Demo

/-- At most one User row per external identity. -/
def uniquePrivyIds (users : List UserRow) : Prop :=
  users.Pairwise (fun a b => a.privy_id ≠ b.privy_id)

/-- A concurrently inserted User row for the external identity `pX`. -/
def wUserRace : UserRow := ⟨"u1", "pX", none, none, none, none⟩

/-- Counterexample for C9 as stated: in the login create path
(`POST /api/user`), a unique-constraint conflict caused by a concurrently
inserted row makes the handler fail with 500 Internal instead of
re-fetching the existing record and succeeding. -/
theorem user_create_conflict_fails_cx :
    userPost ⟨[], [], [], [], [], [], []⟩ [wUserRace] (some "pX") none
        "u2" =
      (.error ⟨500, "Failed to create user"⟩,
        ⟨[wUserRace], [], [], [], [], [], []⟩) := rfl

/-- C9 (amended): the comment-route identity resolver
(`getOrCreateUserByPrivyId`) creates a User when none matches, and on a
unique-constraint conflict caused by a concurrent first request it
re-fetches and returns the existing record without adding a row; the login
endpoint (`POST /api/user`) creates a User when none matches but surfaces
such a conflict as a 500 failure, also without adding a second row; both
paths preserve at most one User row per external identity. -/
theorem identity_resolution_race (db0 : DB) (interference : List UserRow)
    (privyId newId : String) :
    (getUserByPrivyId db0 privyId = none →
      (∀ u ∈ db0.users ++ interference, u.privy_id ≠ privyId) →
      getOrCreateUserByPrivyId db0 interference privyId newId =
        (some ⟨newId, privyId, none, none, none, none⟩,
          { db0 with users := (db0.users ++ interference) ++
            [⟨newId, privyId, none, none, none, none⟩] })) ∧
    (getUserByPrivyId db0 privyId = none →
      (∃ u ∈ interference, u.privy_id = privyId) →
      (getOrCreateUserByPrivyId db0 interference privyId newId).1.isSome ∧
      (getOrCreateUserByPrivyId db0 interference privyId newId).2.users =
        db0.users ++ interference) ∧
    (uniquePrivyIds (db0.users ++ interference) →
      uniquePrivyIds
        (getOrCreateUserByPrivyId db0 interference privyId newId).2.users) ∧
    (∀ email : Option String,
      db0.users.find? (fun u => u.privy_id == privyId) = none →
      (∃ u ∈ interference, u.privy_id = privyId) →
      userPost db0 interference (some privyId) email newId =
        (.error ⟨500, "Failed to create user"⟩,
          { db0 with users := db0.users ++ interference })) := by
  refine ⟨?_, ?_, ?_, ?_⟩
  · intro hnone hno
    have hany : ((db0.users ++ interference).any
        (fun u => u.privy_id == privyId)) = false := by
      rw [List.any_eq_false]
      intro u hu
      simp [hno u hu]
    simp only [getOrCreateUserByPrivyId, hnone, insertUserUnique]
    rw [if_neg (by simp [hany])]
  · intro hnone hconf
    have hany : ((db0.users ++ interference).any
        (fun u => u.privy_id == privyId)) = true := by
      rw [List.any_eq_true]
      obtain ⟨u, hu, hup⟩ := hconf
      exact ⟨u, List.mem_append_right _ hu, by simp [hup]⟩
    have hsome : (getUserByPrivyId
        { db0 with users := db0.users ++ interference } privyId).isSome :=
      by
      rw [getUserByPrivyId, List.find?_isSome]
      obtain ⟨u, hu, hup⟩ := hconf
      exact ⟨u, List.mem_append_right _ hu, by simp [hup]⟩
    simp only [getOrCreateUserByPrivyId, hnone, insertUserUnique]
    rw [if_pos (by simp [hany])]
    exact ⟨hsome, rfl⟩
  · intro huniq
    rcases hfound : getUserByPrivyId db0 privyId with _ | u
    · simp only [getOrCreateUserByPrivyId, hfound, insertUserUnique]
      by_cases hany : ((db0.users ++ interference).any
          (fun u => u.privy_id == privyId)) = true
      · rw [if_pos (by simp [hany])]
        exact huniq
      · rw [if_neg (by simp [hany])]
        rw [uniquePrivyIds, List.pairwise_append]
        refine ⟨huniq, List.pairwise_singleton _ _, ?_⟩
        intro a ha b hb
        obtain rfl : b = (⟨newId, privyId, none, none, none, none⟩ :
            UserRow) := List.mem_singleton.mp hb
        rw [Bool.not_eq_true, List.any_eq_false] at hany
        intro hcontra
        exact absurd (by simp [hcontra]) (hany a ha)
    · simp only [getOrCreateUserByPrivyId, hfound]
      exact (List.pairwise_append.mp huniq).1
  · intro email hnone0 hconf
    have hany : ((db0.users ++ interference).any
        (fun u => u.privy_id == privyId)) = true := by
      rw [List.any_eq_true]
      obtain ⟨u, hu, hup⟩ := hconf
      exact ⟨u, List.mem_append_right _ hu, by simp [hup]⟩
    simp only [userPost, hnone0, insertUserUnique]
    rw [if_pos (by simp [hany])]

/-- Witness for the amended C9: on an empty datastore the resolver creates
the user; with a conflicting concurrent insert it still succeeds and adds
no row. -/
theorem identity_resolution_race_witness :
    getOrCreateUserByPrivyId ⟨[], [], [], [], [], [], []⟩ [] "pX" "u2" =
      (some ⟨"u2", "pX", none, none, none, none⟩,
        ⟨[⟨"u2", "pX", none, none, none, none⟩], [], [], [], [], [], []⟩) ∧
    ((getOrCreateUserByPrivyId ⟨[], [], [], [], [], [], []⟩ [wUserRace]
        "pX" "u2").1.isSome ∧
      (getOrCreateUserByPrivyId ⟨[], [], [], [], [], [], []⟩ [wUserRace]
        "pX" "u2").2.users = [wUserRace]) ∧
    userPost ⟨[], [], [], [], [], [], []⟩ [wUserRace] (some "pX") none
        "u2" =
      (.error ⟨500, "Failed to create user"⟩,
        ⟨[wUserRace], [], [], [], [], [], []⟩) := by
  refine ⟨?_, ⟨?_, ?_⟩, ?_⟩
  · exact (identity_resolution_race ⟨[], [], [], [], [], [], []⟩ [] "pX"
      "u2").1 rfl (by intro u hu; simp at hu)
  · exact ((identity_resolution_race ⟨[], [], [], [], [], [], []⟩
      [wUserRace] "pX" "u2").2.1 rfl ⟨wUserRace, by decide, rfl⟩).1
  · exact ((identity_resolution_race ⟨[], [], [], [], [], [], []⟩
      [wUserRace] "pX" "u2").2.1 rfl ⟨wUserRace, by decide, rfl⟩).2
  · exact (identity_resolution_race ⟨[], [], [], [], [], [], []⟩
      [wUserRace] "pX" "u2").2.2.2 none rfl ⟨wUserRace, by decide, rfl⟩

end Demo
